import Mathlib

/-!
Verification of the network-topology discovery utilities of the repository
(`src/utils/network.py` and `src/yunohost/utils/network.py`).

The Python functions are shallowly embedded as executable Lean definitions:

* text helpers model the exact Python primitives used by the code
  (`str.strip()`, `str.split()`, `str.startswith`, `"x" in s`),
* the regular expressions of `_extract_inet`, `is_default_route` and
  `get_gateway` are hand-compiled into backtracking candidate-list matchers
  that reproduce Python `re` semantics (leftmost match, alternation tried in
  written order, greedy quantifiers, `re.finditer` resuming after the match),
* external collaborators (cache file, `ip route` output, the settings table,
  `download_text`) become fields of an explicit `Env` record, and the
  observable side effects (cache write, mirrors contacted, routing table
  requested) are returned alongside the result.

Machine text is ASCII in all the command output this code parses; character
classes (`\d`, whitespace) are modelled on the ASCII range.
-/

/-! ## Python text primitives -/

/-- The whitespace characters stripped or split on by Python `str.strip()` /
`str.split()` (ASCII range). -/
def isPySpace (c : Char) : Bool :=
  c = ' ' || c = '\t' || c = '\n' || c = '\r' || c = '\x0b' || c = '\x0c'

/-- `leadsWith pat cs` is true when the list `cs` begins with `pat`
(models Python `str.startswith` on the character level). -/
def leadsWith : List Char → List Char → Bool
  | [], _ => true
  | _ :: _, [] => false
  | p :: ps, c :: cs => p = c && leadsWith ps cs

/-- Python `s.startswith(pre)`. -/
def pyStartsWith (s pre : String) : Bool := leadsWith pre.data s.data

/-- Python `c in s` for a single character. -/
def pyHasChar (s : String) (c : Char) : Bool := s.data.any (· = c)

/-- Python `s.strip()` on the character list. -/
def pyStripList (cs : List Char) : List Char :=
  ((cs.dropWhile isPySpace).reverse.dropWhile isPySpace).reverse

/-- Python `s.strip()`. -/
def pyStrip (s : String) : String := String.mk (pyStripList s.data)

/-- Python `s.split(sep)` for a one-character separator: separators delimit
fields, empty fields are kept, `"".split(sep) == [""]`. -/
def pySplitOn (sep : Char) (cs : List Char) : List (List Char) :=
  cs.foldr
    (fun c acc =>
      if c = sep then [] :: acc
      else
        match acc with
        | h :: t => (c :: h) :: t
        | [] => [[c]])
    [[]]

/-- Python `s.split("\n")` as used on command output. -/
def linesOf (s : String) : List String := (pySplitOn '\n' s.data).map String.mk

/-- Python `s.split(",")` as used on the mirror setting. -/
def commaSplit (s : String) : List String := (pySplitOn ',' s.data).map String.mk

/-- Python `s.split()[0]`: the first maximal run of non-whitespace
characters; `none` models the `IndexError` raised on a whitespace-only
string (unreachable from `is_default_route`, whose guard requires a colon
in the string). -/
def pyFirstField (cs : List Char) : Option (List Char) :=
  match cs.dropWhile isPySpace with
  | [] => none
  | c :: rest => some ((c :: rest).takeWhile (fun x => !isPySpace x))

/-! ## The default-route predicate

`is_default_route` in `get_public_ip_from_remote_server`:

    return r.startswith("default") or (
        ":" in r and re.match(r".*/[0-3]$", r.split()[0])
    )
-/

/-- Models `re.match(r".*/[0-3]$", f)`: `.*` matches any characters except
newline, and `$` matches at the end of the string or just before a final
newline, so the field must end (possibly before one final newline) in `/0`,
`/1`, `/2` or `/3` with no earlier newline in the matched span. -/
def matchShortTail (f : List Char) : Bool :=
  (match f.reverse with
   | c :: d :: rest => (d = '/') && ('0' ≤ c && c ≤ '3') && rest.all (fun x => x ≠ '\n')
   | _ => false)
  ||
  (match f.reverse with
   | a :: c :: d :: rest =>
     (a = '\n') && (d = '/') && ('0' ≤ c && c ≤ '3') && rest.all (fun x => x ≠ '\n')
   | _ => false)

/-- One line of routing-table output signals a default(-like) route.
Identical in both source files; the predicate does not depend on the
protocol being queried. -/
def is_default_route (r : String) : Bool :=
  pyStartsWith r "default" ||
  (pyHasChar r ':' &&
    match pyFirstField r.data with
    | some f => matchShortTail f
    | none => false)

/-- `any(is_default_route(r) for r in routes)`. -/
def route_available (routes : List String) : Bool := routes.any is_default_route

/-! ## Mirror votes (`get_public_ips`, src/utils/network.py) -/

/-- One fetched address is recorded in the count table (a Python dict in
insertion order): an existing key is bumped in place, a new key is appended. -/
def addVote : List (String × Nat) → String → List (String × Nat)
  | [], ip => [(ip, 1)]
  | (a, n) :: t, ip => if a = ip then (a, n + 1) :: t else (a, n) :: addVote t ip

/-- The per-mirror fetch loop: each URL is tried in order; a successful
fetch contributes one vote for the stripped text, a failed fetch
(`download_text` raising) is skipped. -/
def votesOf (fetch : String → Option String) : List String → List (String × Nat) → List (String × Nat)
  | [], acc => acc
  | u :: us, acc =>
    match fetch u with
    | some t => votesOf fetch us (addVote acc (pyStrip t))
    | none => votesOf fetch us acc

/-- Stable insertion (after existing entries with a key less than or equal)
used to model Python's stable `list.sort(key=lambda x: x[1])`, which sorts
by count in ascending order. -/
def insertAsc (x : String × Nat) : List (String × Nat) → List (String × Nat)
  | [] => [x]
  | y :: t => if y.2 ≤ x.2 then y :: insertAsc x t else x :: y :: t

/-- Stable ascending sort by vote count. -/
def sortByCountAsc (l : List (String × Nat)) : List (String × Nat) :=
  l.foldl (fun acc x => insertAsc x acc) []

/-! ## The external collaborators -/

/-- The state and collaborators one resolution call observes:
the per-protocol cache file (existence, content, ctime), the clock, the
kernel IPv6 feature file `/proc/net/if_inet6`, the routing-table command
output per protocol, the `security.ipmirrors.v{4,6}` setting, and
`download_text` (`none` models the fetch raising). -/
structure Env where
  cacheExists : Bool
  cacheContent : String
  cacheCtime : Int
  now : Int
  hasIf6 : Bool
  routeOutput : Nat → String
  ipmirrors : Nat → String
  fetch : String → Option String

/-- `settings_get("security.ipmirrors.v" + str(protocol)).split(",")`. -/
def mirrorUrls (protocol : Nat) (env : Env) : List String :=
  commaSplit (env.ipmirrors protocol)

/-- `get_public_ips` (src/utils/network.py): query the first three mirrors,
tally votes by exact string, sort ascending by frequency, return the keys. -/
def get_public_ips (protocol : Nat) (env : Env) : List String :=
  (sortByCountAsc (votesOf env.fetch ((mirrorUrls protocol env).take 3) [])).map Prod.fst

/-- Result of `get_public_ip_from_remote_server` together with its
observable effects: whether the routing table was requested and how many
mirror fetches were attempted. -/
structure RemoteOut where
  result : Option String
  routesAsked : Bool
  mirrorsAsked : Nat

/-- `get_public_ip_from_remote_server` (src/utils/network.py): IPv6
kernel-support short circuit, then the default-route check, then the
mirror consensus; `ip_list[0]` when the vote list is nonempty. -/
def get_public_ip_from_remote_server (protocol : Nat) (env : Env) : RemoteOut :=
  if protocol = 6 && !env.hasIf6 then
    { result := none, routesAsked := false, mirrorsAsked := 0 }
  else if !route_available (linesOf (env.routeOutput protocol)) then
    { result := none, routesAsked := true, mirrorsAsked := 0 }
  else
    { result := (get_public_ips protocol env).head?
      routesAsked := true
      mirrorsAsked := ((mirrorUrls protocol env).take 3).length }

/-- Result of one `get_public_ip` call with its observable effects: the
(possibly raised) outcome, whether the cache file was consulted, whether
the remote resolution ran, what was written to the cache, and the state
after the call (a cache write sets the file's ctime to the current time). -/
structure CallOut where
  outcome : Except String (Option String)
  checkedCache : Bool
  remoteAsked : Bool
  written : Option String
  envAfter : Env

/-- `get_public_ip` (src/utils/network.py; the version in
src/yunohost/utils/network.py is line-for-line the same): assert the
protocol, then serve from the cache file when it exists and is less than
120 seconds old (an empty stripped content means "no IP"), otherwise
resolve remotely and persist `ip or ""`. -/
def get_public_ip (protocol : Nat) (env : Env) : CallOut :=
  if protocol = 4 ∨ protocol = 6 then
    if env.cacheExists && (env.cacheCtime - env.now).natAbs < 120 then
      let ip := pyStrip env.cacheContent
      let ipOpt := if ip = "" then none else some ip
      { outcome := .ok ipOpt, checkedCache := true, remoteAsked := false
        written := none, envAfter := env }
    else
      let r := get_public_ip_from_remote_server protocol env
      let content := match r.result with
        | some a => if a = "" then "" else a
        | none => ""
      { outcome := .ok r.result, checkedCache := true, remoteAsked := true
        written := some content
        envAfter := { env with cacheExists := true, cacheContent := content,
                               cacheCtime := env.now } }
  else
    { outcome := .error ("Invalid protocol version for get_public_ip: " ++
        toString protocol ++ ", expected 4 or 6")
      checkedCache := false, remoteAsked := false, written := none, envAfter := env }

/-! ## The legacy resolver (src/yunohost/utils/network.py)

Its `get_public_ip_from_remote_server` queries two hardcoded mirrors; the
`except` handler calls `self.logger_debug(...)`, and `self` is not defined
in the module-level function, so the handler itself raises `NameError` as
soon as one fetch fails. -/

/-- The two hardcoded mirror URLs of the legacy resolver. -/
def yunoUrls (protocol : Nat) : List String :=
  let sfx := if protocol ≠ 4 then toString protocol else ""
  ["https://ip" ++ sfx ++ ".yunohost.org", "https://0-ip" ++ sfx ++ ".yunohost.org"]

/-- The legacy fetch loop: the first successful fetch returns its stripped
text; the first failed fetch raises `NameError` out of the `except` handler
(`self.logger_debug`), so no later mirror is ever reached after a failure.
Also returns how many fetches were attempted. -/
def yunoFetchLoop (fetch : String → Option String) : List String → Except String (Option String) × Nat
  | [] => (.ok none, 0)
  | u :: _ =>
    match fetch u with
    | some t => (.ok (some (pyStrip t)), 1)
    | none => (.error "NameError: name 'self' is not defined", 1)

/-- `get_public_ip_from_remote_server` (src/yunohost/utils/network.py). -/
def yuno_get_public_ip_from_remote_server (protocol : Nat) (env : Env) :
    Except String (Option String) × Nat :=
  if protocol = 6 && !env.hasIf6 then (.ok none, 0)
  else if !route_available (linesOf (env.routeOutput protocol)) then (.ok none, 0)
  else yunoFetchLoop env.fetch (yunoUrls protocol)

/-! ## The `_extract_inet` regular expressions

    ip4_pattern = ((25[0-5]|2[0-4]\d|[0-1]?\d?\d)(\.(25[0-5]|2[0-4]\d|[0-1]?\d?\d)){3}
    ip6_pattern = (((?:[0-9A-Fa-f]{1,4}(?::[0-9A-Fa-f]{1,4})*)?)::((?:...)?)
    ip4_pattern += /[0-9]{1,2}) if not skip_netmask else )
    ip6_pattern += /[0-9]{1,3}) if not skip_netmask else )

Each pattern is compiled into a candidate-length matcher: a component maps
the remaining characters to the list of lengths it can consume, in the
order Python's backtracking engine tries them (alternatives in written
order, greedy quantifiers longest first).  Sequencing composes the
candidate lists depth first, so the head of the final list is the length
of the match the engine returns. -/

/-- Depth-first sequencing of two candidate-length matchers. -/
def thenC (p q : List Char → List Nat) (cs : List Char) : List Nat :=
  (p cs).flatMap fun n => (q (cs.drop n)).map (n + ·)

/-- Depth-first sequencing of a list of components (empty list: the empty
match). -/
def seqC : List (List Char → List Nat) → List Char → List Nat
  | [] => fun _ => [0]
  | p :: ps => thenC p (seqC ps)

/-- Alternative `25[0-5]` of the octet pattern, on the first three
characters. -/
def oct3a (c d e : Char) : Bool := c = '2' && d = '5' && ('0' ≤ e && e ≤ '5')

/-- Alternative `2[0-4]\d` of the octet pattern. -/
def oct3b (c d e : Char) : Bool := c = '2' && ('0' ≤ d && d ≤ '4') && e.isDigit

/-- The three-character case of alternative `[0-1]?\d?\d`. -/
def oct3c (c d e : Char) : Bool := (c = '0' || c = '1') && d.isDigit && e.isDigit

/-- Candidate lengths of the octet pattern `25[0-5]|2[0-4]\d|[0-1]?\d?\d`
in backtracking order: the three-character parses of the alternatives in
written order, then the two-character parses of `[0-1]?\d?\d`
(`[0-1]` + `\d` first, then `\d` + `\d`), then its one-character parse. -/
def octetC (cs : List Char) : List Nat :=
  (match cs with
   | c :: d :: e :: _ =>
     (if oct3a c d e then [3] else []) ++
     (if oct3b c d e then [3] else []) ++
     (if oct3c c d e then [3] else [])
   | _ => []) ++
  (match cs with
   | c :: d :: _ =>
     (if (c = '0' || c = '1') && d.isDigit then [2] else []) ++
     (if c.isDigit && d.isDigit then [2] else [])
   | _ => []) ++
  (match cs with
   | c :: _ => if c.isDigit then [1] else []
   | _ => [])

/-- The literal `\.`. -/
def dotC (cs : List Char) : List Nat :=
  match cs with
  | c :: _ => if c = '.' then [1] else []
  | [] => []

/-- The literal `/`. -/
def slashC (cs : List Char) : List Nat :=
  match cs with
  | c :: _ => if c = '/' then [1] else []
  | [] => []

/-- Greedy `[0-9]{1,2}` (two characters first). -/
def d12C (cs : List Char) : List Nat :=
  (match cs with
   | c :: d :: _ => if c.isDigit && d.isDigit then [2] else []
   | _ => []) ++
  (match cs with
   | c :: _ => if c.isDigit then [1] else []
   | _ => [])

/-- Greedy `[0-9]{1,3}` (three characters first). -/
def d13C (cs : List Char) : List Nat :=
  (match cs with
   | c :: d :: e :: _ => if c.isDigit && d.isDigit && e.isDigit then [3] else []
   | _ => []) ++
  (match cs with
   | c :: d :: _ => if c.isDigit && d.isDigit then [2] else []
   | _ => []) ++
  (match cs with
   | c :: _ => if c.isDigit then [1] else []
   | _ => [])

/-- The full IPv4 pattern: four octets separated by dots, followed by
`/[0-9]{1,2}` exactly when the netmask part is in the pattern
(`withMask = !skip_netmask`). -/
def ip4C (withMask : Bool) : List Char → List Nat :=
  seqC ([octetC, dotC, octetC, dotC, octetC, dotC, octetC] ++
        (if withMask then [slashC, d12C] else []))

/-- The loopback test `addr.startswith("127.")`. -/
def loop4 : List Char := ['1', '2', '7', '.']

/-- The `re.finditer` loop over the IPv4 pattern: at each position take the
backtracking engine's match if any, skip it and resume after it when it is
a loopback address and `skip_loopback` is set, otherwise stop at the first
(remaining) match.  Fuel bounds the scan; `s.length + 1` always suffices
since every step consumes at least one character. -/
def scanIp4 (withMask sl : Bool) : Nat → List Char → Option String
  | 0, _ => none
  | fuel + 1, cs =>
    match (ip4C withMask cs).head? with
    | some n =>
      if sl && leadsWith loop4 (cs.take n) then
        scanIp4 withMask sl fuel (cs.drop (max n 1))
      else some (String.mk (cs.take n))
    | none =>
      match cs with
      | [] => none
      | _ :: t => scanIp4 withMask sl fuel t

/-- The hex-digit class `[0-9A-Fa-f]`. -/
def hexDig (c : Char) : Bool :=
  c.isDigit || ('A' ≤ c && c ≤ 'F') || ('a' ≤ c && c ≤ 'f')

/-- Greedy `[0-9A-Fa-f]{1,4}`. -/
def chunkC (cs : List Char) : List Nat :=
  (match cs with
   | a :: b :: c :: d :: _ => if hexDig a && hexDig b && hexDig c && hexDig d then [4] else []
   | _ => []) ++
  (match cs with
   | a :: b :: c :: _ => if hexDig a && hexDig b && hexDig c then [3] else []
   | _ => []) ++
  (match cs with
   | a :: b :: _ => if hexDig a && hexDig b then [2] else []
   | _ => []) ++
  (match cs with
   | a :: _ => if hexDig a then [1] else []
   | _ => [])

/-- `(?::[0-9A-Fa-f]{1,4})`: a colon followed by a hex chunk. -/
def colonChunkC (cs : List Char) : List Nat :=
  match cs with
  | c :: rest => if c = ':' then (chunkC rest).map (· + 1) else []
  | [] => []

/-- Greedy star: more iterations are tried before fewer; a zero-width
iteration is not repeated (the body here always consumes at least two
characters).  Fuel bounds the iteration count. -/
def starC : Nat → (List Char → List Nat) → List Char → List Nat
  | 0, _, _ => [0]
  | f + 1, body, cs =>
    ((body cs).flatMap fun n =>
      if n = 0 then [] else (starC f body (cs.drop n)).map (n + ·)) ++ [0]

/-- `[0-9A-Fa-f]{1,4}(?::[0-9A-Fa-f]{1,4})*`. -/
def partC (fuel : Nat) (cs : List Char) : List Nat :=
  (chunkC cs).flatMap fun n => (starC fuel colonChunkC (cs.drop n)).map (n + ·)

/-- `(?:...)?` around a hex part: present (greedy) before absent. -/
def optPartC (fuel : Nat) (cs : List Char) : List Nat :=
  partC fuel cs ++ [0]

/-- The literal `::`. -/
def dcolonC (cs : List Char) : List Nat :=
  match cs with
  | a :: b :: _ => if a = ':' && b = ':' then [2] else []
  | _ => []

/-- The full IPv6 pattern: optional hex part, `::`, optional hex part,
followed by `/[0-9]{1,3}` exactly when the netmask part is in the
pattern. -/
def ip6C (withMask : Bool) (fuel : Nat) : List Char → List Nat :=
  seqC ([optPartC fuel, dcolonC, optPartC fuel] ++
        (if withMask then [slashC, d13C] else []))

/-- The loopback test `addr == "::1"`. -/
def loop6 : List Char := [':', ':', '1']

/-- The `re.finditer` loop over the IPv6 pattern, with the `::1` skip. -/
def scanIp6 (withMask sl : Bool) : Nat → List Char → Option String
  | 0, _ => none
  | fuel + 1, cs =>
    match (ip6C withMask (cs.length + 1) cs).head? with
    | some n =>
      if sl && cs.take n == loop6 then
        scanIp6 withMask sl fuel (cs.drop (max n 1))
      else some (String.mk (cs.take n))
    | none =>
      match cs with
      | [] => none
      | _ :: t => scanIp6 withMask sl fuel t

/-- The dict returned by `_extract_inet`: at most one address per family. -/
structure InetResult where
  ipv4 : Option String
  ipv6 : Option String
deriving DecidableEq

/-- `_extract_inet(string, skip_netmask, skip_loopback)`: the first
non-skipped match of each family's pattern, independently. -/
def _extract_inet (s : String) (sn sl : Bool) : InetResult :=
  { ipv4 := scanIp4 (!sn) sl (s.data.length + 1) s.data
    ipv6 := scanIp6 (!sn) sl (s.data.length + 1) s.data }

/-! ## `get_gateway`

    m = re.search(r"default via (.*) dev ([a-z]+[0-9]?)", output)
    addr = _extract_inet(m.group(1), True)
    return addr.popitem()[1] if len(addr) == 1 else None
-/

/-- The literal `default via `. -/
def dvLit : List Char := "default via ".data

/-- The literal ` dev `. -/
def devLit : List Char := " dev ".data

/-- The class `[a-z]`. -/
def isLowerAZ (c : Char) : Bool := 'a' ≤ c && c ≤ 'z'

/-- Whether ` dev ` followed by at least one `[a-z]` matches at offset `k`
of the text after `default via ` (the `[0-9]?` tail cannot fail). -/
def devOk (after : List Char) (k : Nat) : Bool :=
  leadsWith devLit (after.drop k) && (((after.drop k).drop 5).head?.any isLowerAZ)

/-- Backtracking of the greedy `(.*)`: the largest end offset at which
` dev [a-z]...` matches, scanning down from the end of the line (`.`
cannot cross a newline). -/
def tryK (after : List Char) : Nat → Option Nat
  | 0 => if devOk after 0 then some 0 else none
  | k + 1 => if devOk after (k + 1) then some (k + 1) else tryK after k

/-- `re.search` of `default via (.*) dev ([a-z]+[0-9]?)`: the scan over
start positions; at a position where `default via ` matches but no end
offset works, the search moves to the next position, as Python does. -/
def gatewaySearchGo : Nat → List Char → Option (List Char)
  | 0, _ => none
  | fuel + 1, cs =>
    if leadsWith dvLit cs then
      let after := cs.drop 12
      match tryK after (after.takeWhile (· ≠ '\n')).length with
      | some k => some (after.take k)
      | none =>
        match cs with
        | [] => none
        | _ :: t => gatewaySearchGo fuel t
    else
      match cs with
      | [] => none
      | _ :: t => gatewaySearchGo fuel t

/-- Group 1 of the first `default via (.*) dev ([a-z]+[0-9]?)` match. -/
def gatewaySearch (s : String) : Option String :=
  (gatewaySearchGo (s.data.length + 1) s.data).map String.mk

/-- The values of the `_extract_inet` dict, IPv4 first (dict insertion
order). -/
def famList (r : InetResult) : List String :=
  (match r.ipv4 with | some a => [a] | none => []) ++
  (match r.ipv6 with | some b => [b] | none => [])

/-- `get_gateway` (identical in both source files): `None` when the regex
does not match; otherwise extract addresses (skipping netmask and
loopback) from the captured group and return the single address when
exactly one family was found, `None` otherwise. -/
def get_gateway (output : String) : Option String :=
  match gatewaySearch output with
  | none => none
  | some g =>
    match famList (_extract_inet g true true) with
    | [a] => some a
    | _ => none

/-! ## Spec-side predicate for the route heuristic (refinement target)

Written from the spec's words, to be compared with the code-side
`is_default_route`: "A line signals availability if it starts with the
literal token `default`, OR if it contains a colon and its first
whitespace-delimited field ends in `/0`, `/1`, `/2`, or `/3`." -/

/-- The spec's formulation of the default-like-route test. -/
def specDefaultLike (r : String) : Bool :=
  pyStartsWith r "default" ||
  (pyHasChar r ':' &&
    (let f := (r.data.dropWhile isPySpace).takeWhile (fun x => !isPySpace x)
     [['/', '0'], ['/', '1'], ['/', '2'], ['/', '3']].any (fun suf => suf.isSuffixOf f)))

/-- The octet strings accepted by `25[0-5]|2[0-4]\d|[0-1]?\d?\d`: one or
two digits, or three characters matching one of the written
alternatives. -/
def validOctet : List Char → Bool
  | [c] => c.isDigit
  | [c, d] => c.isDigit && d.isDigit
  | [c, d, e] => oct3a c d e || oct3b c d e || oct3c c d e
  | _ => false

/-- The prefix-length strings accepted by `[0-9]{1,2}`. -/
def validPfxDigits : List Char → Bool
  | [c] => c.isDigit
  | [c, d] => c.isDigit && d.isDigit
  | _ => false

/-! ## Concrete scenarios -/

/-- Three mirrors, two of which report the same address: the scenario of
the specification's consensus example. -/
def envVotes : Env :=
  { cacheExists := false, cacheContent := "", cacheCtime := 0, now := 0, hasIf6 := true
    routeOutput := fun _ => "default via 10.0.0.1 dev eth0"
    ipmirrors := fun _ => "u1,u2,u3"
    fetch := fun u =>
      if u = "u1" then some "1.2.3.4"
      else if u = "u2" then some "1.2.3.4"
      else if u = "u3" then some "5.6.7.8" else none }

/-- A default route is present but every mirror fetch fails. -/
def envAllFail : Env :=
  { cacheExists := false, cacheContent := "", cacheCtime := 0, now := 0, hasIf6 := true
    routeOutput := fun _ => "default via 10.0.0.1 dev eth0"
    ipmirrors := fun _ => "u1,u2,u3"
    fetch := fun _ => none }

/-- The routing table holds only the IPv6-style broad-prefix line, and a
single mirror answers. -/
def envShortRoute : Env :=
  { cacheExists := false, cacheContent := "", cacheCtime := 0, now := 0, hasIf6 := true
    routeOutput := fun _ => "2000::/3 dev tun0"
    ipmirrors := fun _ => "u1"
    fetch := fun _ => some "9.9.9.9" }

/-- No cache entry; the sole mirror returns whitespace-only text, which is
stripped to the empty string. -/
def envBlankMirror : Env :=
  { cacheExists := false, cacheContent := "", cacheCtime := 0, now := 0, hasIf6 := true
    routeOutput := fun _ => "default via 10.0.0.1 dev eth0"
    ipmirrors := fun _ => "u"
    fetch := fun _ => some " " }

/-- A fresh cache entry holding an address. -/
def envCached : Env :=
  { cacheExists := true, cacheContent := "1.2.3.4", cacheCtime := 0, now := 10, hasIf6 := true
    routeOutput := fun _ => "default via 10.0.0.1 dev eth0"
    ipmirrors := fun _ => "u"
    fetch := fun _ => some "5.6.7.8" }

/-- A fresh cache entry holding the empty string, next to the same state
with the cache file absent. -/
def envCachedEmpty : Env :=
  { cacheExists := true, cacheContent := "", cacheCtime := 0, now := 10, hasIf6 := true
    routeOutput := fun _ => "default via 10.0.0.1 dev eth0"
    ipmirrors := fun _ => "u"
    fetch := fun _ => some "5.6.7.8" }

/-- A host without kernel IPv6 support and with an empty IPv4 routing
table. -/
def envNoRoutes : Env :=
  { cacheExists := false, cacheContent := "", cacheCtime := 0, now := 0, hasIf6 := false
    routeOutput := fun _ => "10.0.0.0/24 dev eth0"
    ipmirrors := fun _ => "u"
    fetch := fun _ => some "5.6.7.8" }

/-! ## Helper lemmas -/

theorem isDigitRange {c hi : Char} (h1 : '0' ≤ c) (h2 : c ≤ hi) (h3 : hi ≤ '9') :
    c.isDigit = true := by
  have n1 : ('0' : Char).val.toNat ≤ c.val.toNat := h1
  have n2 : c.val.toNat ≤ hi.val.toNat := h2
  have n3 : hi.val.toNat ≤ ('9' : Char).val.toNat := h3
  have h0 : ('0' : Char).val.toNat = 48 := rfl
  have h9 : ('9' : Char).val.toNat = 57 := rfl
  simp only [Char.isDigit, Bool.and_eq_true, decide_eq_true_eq, ge_iff_le]
  constructor
  · show (48 : UInt32).toNat ≤ c.val.toNat
    have he : (48 : UInt32).toNat = 48 := rfl
    omega
  · show c.val.toNat ≤ (57 : UInt32).toNat
    have he : (57 : UInt32).toNat = 57 := rfl
    omega

theorem char_enum03 {c : Char} (h1 : '0' ≤ c) (h2 : c ≤ '3') :
    c = '0' ∨ c = '1' ∨ c = '2' ∨ c = '3' := by
  have n1 : ('0' : Char).val.toNat ≤ c.val.toNat := h1
  have n2 : c.val.toNat ≤ ('3' : Char).val.toNat := h2
  have h0 : ('0' : Char).val.toNat = 48 := rfl
  have h3 : ('3' : Char).val.toNat = 51 := rfl
  have hv : c.val.toNat = 48 ∨ c.val.toNat = 49 ∨ c.val.toNat = 50 ∨ c.val.toNat = 51 := by
    omega
  have mk : ∀ d : Char, c.val.toNat = d.val.toNat → c = d := fun d hd =>
    Char.eq_of_val_eq (UInt32.ext hd)
  rcases hv with h | h | h | h
  · exact Or.inl (mk '0' h)
  · exact Or.inr (Or.inl (mk '1' h))
  · exact Or.inr (Or.inr (Or.inl (mk '2' h)))
  · exact Or.inr (Or.inr (Or.inr (mk '3' h)))

/-! ## C1: the consensus winner -/

/-- C1.  The claim states that with mirrors answering 1.2.3.4, 1.2.3.4 and
5.6.7.8, resolution returns the most-voted address 1.2.3.4.  The code
sorts the vote table by count in ascending order and the caller takes
element 0, so the least-voted address 5.6.7.8 is returned instead: the
vote list comes back ascending and the resolver result is 5.6.7.8. -/
theorem C1_least_voted_returned :
    get_public_ips 4 envVotes = ["5.6.7.8", "1.2.3.4"] ∧
    (get_public_ip_from_remote_server 4 envVotes).result = some "5.6.7.8" := by
  constructor <;> rfl

/-! ## C2: a failed mirror fetch -/

/-- C2.  The claim states that a failing mirror fetch is absorbed and the
remaining mirrors are still queried.  In the resolver of
src/yunohost/utils/network.py the except handler itself raises NameError
(it calls self.logger_debug in a module-level function), so the first
failed fetch aborts the whole resolution after one attempted mirror, with
the second mirror never queried. -/
theorem C2_mirror_failure_raises :
    yuno_get_public_ip_from_remote_server 4 envAllFail =
      (.error "NameError: name 'self' is not defined", 1) := by
  rfl

/-! ## C10: the protocol assertion -/

/-- C10.  For any protocol other than 4 and 6, get_public_ip fails its
assertion before consulting the cache, writing anything or contacting the
network; for protocol 4 or 6 the assertion passes and the call returns a
value. -/
theorem C10_assert_protocol (p : Nat) (env : Env) :
    (p ≠ 4 → p ≠ 6 →
      (get_public_ip p env).outcome =
        .error ("Invalid protocol version for get_public_ip: " ++ toString p ++
          ", expected 4 or 6") ∧
      (get_public_ip p env).checkedCache = false ∧
      (get_public_ip p env).remoteAsked = false ∧
      (get_public_ip p env).written = none) ∧
    ((p = 4 ∨ p = 6) → ∃ r, (get_public_ip p env).outcome = .ok r) := by
  constructor
  · intro h4 h6
    have hne : ¬(p = 4 ∨ p = 6) := by
      rintro (h | h) <;> [exact h4 h; exact h6 h]
    simp [get_public_ip, hne]
  · intro h
    simp only [get_public_ip, if_pos h]
    split
    · exact ⟨_, rfl⟩
    · exact ⟨_, rfl⟩

/-- Witness for C10 at protocol 5 (assertion fires) and protocol 4
(call proceeds). -/
theorem C10_assert_protocol_witness :
    (get_public_ip 5 envCached).outcome =
      .error "Invalid protocol version for get_public_ip: 5, expected 4 or 6" ∧
    ∃ r, (get_public_ip 4 envCached).outcome = .ok r :=
  ⟨((C10_assert_protocol 5 envCached).1 (by decide) (by decide)).1,
   (C10_assert_protocol 4 envCached).2 (Or.inl rfl)⟩

/-! ## C6: cache entry semantics -/

/-- C6.  Under a valid protocol: a cache entry younger than 120 seconds is
served without remote resolution, its stripped content interpreted as no-IP
exactly when empty; an absent entry instead triggers the remote
resolution. -/
theorem C6_cache_entry_semantics (p : Nat) (env : Env) (hp : p = 4 ∨ p = 6) :
    (env.cacheExists = true → (env.cacheCtime - env.now).natAbs < 120 →
      (get_public_ip p env).outcome =
        .ok (if pyStrip env.cacheContent = "" then none
             else some (pyStrip env.cacheContent)) ∧
      (get_public_ip p env).remoteAsked = false ∧
      (get_public_ip p env).written = none) ∧
    (env.cacheExists = false →
      (get_public_ip p env).remoteAsked = true ∧
      (get_public_ip p env).outcome = .ok (get_public_ip_from_remote_server p env).result) := by
  constructor
  · intro hex hct
    have hcond : (env.cacheExists && decide ((env.cacheCtime - env.now).natAbs < 120)) = true := by
      simp [hex, hct]
    simp [get_public_ip, if_pos hp, hcond]
  · intro hex
    have hcond : (env.cacheExists && decide ((env.cacheCtime - env.now).natAbs < 120)) = false := by
      simp [hex]
    simp [get_public_ip, if_pos hp, hcond]

/-- Witness for C6: a fresh nonempty entry is served as its address, a
fresh empty entry is served as none, and the same state with the file
absent goes remote. -/
theorem C6_cache_entry_semantics_witness :
    (get_public_ip 4 envCached).outcome = .ok (some "1.2.3.4") ∧
    (get_public_ip 4 envCachedEmpty).outcome = .ok none ∧
    (get_public_ip 4 { envCachedEmpty with cacheExists := false }).remoteAsked = true := by
  refine ⟨?_, ?_, ?_⟩
  · exact (((C6_cache_entry_semantics 4 envCached (Or.inl rfl)).1 rfl (by decide)).1).trans (by rfl)
  · exact (((C6_cache_entry_semantics 4 envCachedEmpty (Or.inl rfl)).1 rfl (by decide)).1).trans (by rfl)
  · exact ((C6_cache_entry_semantics 4 { envCachedEmpty with cacheExists := false }
      (Or.inl rfl)).2 rfl).1

/-! ## C8: unavailability short-circuits -/

/-- C8.  For protocol 6 without kernel IPv6 support the resolver returns
none without requesting the routing table and without contacting any
mirror; whenever no routing-table line signals a default-like route the
result is none with no mirror contacted; and on a cache miss that result
none is recorded in the cache as the empty string. -/
theorem C8_unavailable_no_mirrors (p : Nat) (env : Env) :
    (p = 6 → env.hasIf6 = false →
      get_public_ip_from_remote_server p env =
        { result := none, routesAsked := false, mirrorsAsked := 0 }) ∧
    (route_available (linesOf (env.routeOutput p)) = false →
      (get_public_ip_from_remote_server p env).result = none ∧
      (get_public_ip_from_remote_server p env).mirrorsAsked = 0) ∧
    ((p = 4 ∨ p = 6) → env.cacheExists = false →
      route_available (linesOf (env.routeOutput p)) = false →
      (get_public_ip p env).written = some "" ∧
      (get_public_ip p env).outcome = .ok none) := by
  refine ⟨?_, ?_, ?_⟩
  · intro hp h6
    subst hp
    simp [get_public_ip_from_remote_server, h6]
  · intro hroute
    by_cases h6 : (p = 6 && !env.hasIf6) = true
    · simp [get_public_ip_from_remote_server, h6]
    · simp only [Bool.not_eq_true] at h6
      simp [get_public_ip_from_remote_server, h6, hroute]
  · intro hp hex hroute
    have hres : (get_public_ip_from_remote_server p env).result = none := by
      by_cases h6 : (p = 6 && !env.hasIf6) = true
      · simp [get_public_ip_from_remote_server, h6]
      · simp only [Bool.not_eq_true] at h6
        simp [get_public_ip_from_remote_server, h6, hroute]
    have hcond : (env.cacheExists && decide ((env.cacheCtime - env.now).natAbs < 120)) = false := by
      simp [hex]
    simp [get_public_ip, if_pos hp, hcond, hres]

/-- Witness for C8 on a host with no kernel IPv6 support and no default
IPv4 route. -/
theorem C8_unavailable_no_mirrors_witness :
    get_public_ip_from_remote_server 6 envNoRoutes =
      { result := none, routesAsked := false, mirrorsAsked := 0 } ∧
    (get_public_ip_from_remote_server 4 envNoRoutes).result = none ∧
    (get_public_ip_from_remote_server 4 envNoRoutes).mirrorsAsked = 0 ∧
    (get_public_ip 4 envNoRoutes).written = some "" ∧
    (get_public_ip 4 envNoRoutes).outcome = .ok none := by
  have h1 := (C8_unavailable_no_mirrors 6 envNoRoutes).1 rfl rfl
  have h2 := (C8_unavailable_no_mirrors 4 envNoRoutes).2.1 (by rfl)
  have h3 := (C8_unavailable_no_mirrors 4 envNoRoutes).2.2 (Or.inl rfl) rfl (by rfl)
  exact ⟨h1, h2.1, h2.2, h3.1, h3.2⟩

/-! ## C5: the default-like-route heuristic -/

theorem suffix2_iff (x : Char) (f : List Char) :
    (['/', x].isSuffixOf f) = true ↔ ∃ rest, f.reverse = x :: '/' :: rest := by
  show (List.isPrefixOf [x, '/'] f.reverse) = true ↔ _
  cases hf : f.reverse with
  | nil => simp [List.isPrefixOf]
  | cons a t =>
    cases t with
    | nil => simp [List.isPrefixOf]
    | cons b u =>
      have hunf : List.isPrefixOf [x, '/'] (a :: b :: u) =
          ((x == a) && (('/' : Char) == b && List.isPrefixOf ([] : List Char) u)) := rfl
      rw [hunf]
      simp only [List.isPrefixOf, Bool.and_true, Bool.and_eq_true, beq_iff_eq]
      constructor
      · rintro ⟨rfl, rfl⟩
        exact ⟨u, rfl⟩
      · rintro ⟨rest, he⟩
        injection he with h1 h2
        injection h2 with h2 h3
        subst h1; subst h2
        exact ⟨rfl, rfl⟩

theorem range03_eq_enum (c : Char) :
    ('0' ≤ c && c ≤ '3') = (c = '0' || c = '1' || c = '2' || c = '3') := by
  cases ha : (('0' ≤ c && c ≤ '3') : Bool) with
  | true =>
    simp only [Bool.and_eq_true, decide_eq_true_eq] at ha
    rcases char_enum03 ha.1 ha.2 with rfl | rfl | rfl | rfl <;> rfl
  | false =>
    cases hb : ((c = '0' || c = '1' || c = '2' || c = '3') : Bool) with
    | true =>
      simp only [Bool.or_eq_true, decide_eq_true_eq] at hb
      rcases hb with ((rfl | rfl) | rfl) | rfl <;> simp at ha
    | false => rfl

theorem matchShortTail_eq_anySuffix (f : List Char) (hf : ∀ x ∈ f, isPySpace x = false) :
    matchShortTail f =
      ([['/', '0'], ['/', '1'], ['/', '2'], ['/', '3']].any (fun suf => suf.isSuffixOf f)) := by
  have hnl : ∀ x ∈ f.reverse, x ≠ '\n' := by
    intro x hx he
    have := hf x (List.mem_reverse.mp hx)
    subst he
    simp [isPySpace] at this
  cases hr : f.reverse with
  | nil =>
    have hfe : f = [] := List.reverse_eq_nil_iff.mp hr
    subst hfe
    rfl
  | cons c t =>
    cases t with
    | nil =>
      have h0 : ∀ x : Char, (['/', x].isSuffixOf f) = false := by
        intro x
        rw [Bool.eq_false_iff]
        intro hx
        obtain ⟨rest, hrest⟩ := (suffix2_iff x f).mp hx
        rw [hr] at hrest
        injection hrest with h1 h2
        exact List.cons_ne_nil _ _ h2.symm
      simp only [matchShortTail, hr, List.any_cons, List.any_nil, h0, Bool.or_false]
    | cons d u =>
      have hcd : ∀ x : Char, (['/', x].isSuffixOf f) = (decide (c = x) && decide (d = '/')) := by
        intro x
        by_cases hcx : c = x
        · by_cases hdx : d = '/'
          · subst hcx; subst hdx
            have hs : (['/', c].isSuffixOf f) = true :=
              (suffix2_iff c f).mpr ⟨u, hr⟩
            simp [hs]
          · have hfalse : (['/', x].isSuffixOf f) = false := by
              rw [Bool.eq_false_iff]
              intro hx
              obtain ⟨rest, hrest⟩ := (suffix2_iff x f).mp hx
              rw [hr] at hrest
              injection hrest with h1 h2
              injection h2 with h2 h3
              exact hdx h2
            rw [hfalse, decide_eq_false hdx, Bool.and_false]
        · have hfalse : (['/', x].isSuffixOf f) = false := by
            rw [Bool.eq_false_iff]
            intro hx
            obtain ⟨rest, hrest⟩ := (suffix2_iff x f).mp hx
            rw [hr] at hrest
            injection hrest with h1 h2
            exact hcx h1
          rw [hfalse, decide_eq_false hcx, Bool.false_and]
      have hallu : (u.all fun x => x ≠ '\n') = true := by
        rw [List.all_eq_true]
        intro x hx
        have hxf : x ∈ f.reverse := by
          rw [hr]; exact List.mem_cons_of_mem _ (List.mem_cons_of_mem _ hx)
        exact decide_eq_true (hnl x hxf)
      have hc_nl : (c = '\n') = False := by
        simp only [eq_iff_iff, iff_false]
        exact hnl c (by rw [hr]; exact List.mem_cons_self _ _)
      have lhs_eq : matchShortTail f = ((d = '/') && ('0' ≤ c && c ≤ '3')) := by
        cases u with
        | nil =>
          simp only [matchShortTail, hr, hallu, List.all_nil, Bool.and_true, Bool.or_false]
        | cons e v =>
          have hallev : ((e :: v).all fun x => x ≠ '\n') = true := hallu
          simp only [matchShortTail, hr, hallev, Bool.and_true, hc_nl, decide_False,
            Bool.false_and, Bool.or_false]
      rw [lhs_eq]
      simp only [List.any_cons, List.any_nil, hcd, Bool.or_false]
      rw [range03_eq_enum]
      cases hd : (decide (d = '/')) with
      | false => simp
      | true =>
        simp only [Bool.and_true, Bool.true_and]
        cases h0 : (decide (c = '0')) <;> cases h1 : (decide (c = '1')) <;>
          cases h2 : (decide (c = '2')) <;> cases h3 : (decide (c = '3')) <;> rfl

theorem is_default_route_eq_spec (r : String) : is_default_route r = specDefaultLike r := by
  unfold is_default_route specDefaultLike
  cases hd : pyStartsWith r "default" with
  | true => rfl
  | false =>
    simp only [Bool.false_or]
    cases hc : pyHasChar r ':' with
    | false => rfl
    | true =>
      simp only [Bool.true_and]
      have hmem : ':' ∈ r.data := by
        have hany := hc
        unfold pyHasChar at hany
        rw [List.any_eq_true] at hany
        obtain ⟨x, hx, he⟩ := hany
        rw [decide_eq_true_eq] at he
        subst he
        exact hx
      cases hdw : r.data.dropWhile isPySpace with
      | nil =>
        exfalso
        have hsp : isPySpace ':' = true := by
          have hall := List.dropWhile_eq_nil_iff.mp hdw
          exact hall _ hmem
        simp [isPySpace] at hsp
      | cons c rest =>
        have hff : pyFirstField r.data = some ((c :: rest).takeWhile fun x => !isPySpace x) := by
          unfold pyFirstField
          rw [hdw]
        simp only [hff, hdw]
        exact matchShortTail_eq_anySuffix _ (by
          intro x hx
          have hp := List.mem_takeWhile_imp hx
          simpa using hp)

/-- C5 counterexample.  The claim says the colon/short-prefix rule never
triggers for protocol 4, so a protocol-4 table whose only line is
"2000::/3 dev tun0" should yield availability false, hence result none
with no mirror contacted.  The code applies the rule regardless of the
protocol: the protocol-4 resolution proceeds to the mirrors and returns
their answer. -/
theorem C5_protocol4_short_route :
    (get_public_ip_from_remote_server 4 envShortRoute).result = some "9.9.9.9" ∧
    (get_public_ip_from_remote_server 4 envShortRoute).mirrorsAsked = 1 ∧
    pyStartsWith "2000::/3 dev tun0" "default" = false := by
  exact ⟨rfl, rfl, rfl⟩

/-- C5 amended.  A line signals availability iff it starts with "default"
or contains a colon and its first whitespace-delimited field ends in /0,
/1, /2 or /3 — for both protocols alike (the code applies the
colon/short-prefix rule without consulting the protocol): the availability
the code computes coincides with the spec predicate on every table. -/
theorem C5_route_heuristic_refines_spec (routes : List String) :
    route_available routes = routes.any specDefaultLike := by
  unfold route_available
  induction routes with
  | nil => rfl
  | cons r rs ih =>
    simp only [List.any_cons, ih, is_default_route_eq_spec]

/-! ## C9: the gateway lookup -/

/-- C9.  The gateway lookup returns none when the routing dump has no
"default via ... dev ..." match; on a match it runs the extractor with
netmask and loopback skipping over the captured group and returns the
single extracted address when exactly one family was found, none when
zero or two families were found (the function is total: no case raises);
on "default via 10.0.0.1 dev eth0" it returns 10.0.0.1, and on
"no default here" it returns none. -/
theorem C9_gateway_lookup (out : String) :
    (gatewaySearch out = none → get_gateway out = none) ∧
    (∀ g, gatewaySearch out = some g →
      (famList (_extract_inet g true true)).length ≠ 1 → get_gateway out = none) ∧
    (∀ g a, gatewaySearch out = some g →
      famList (_extract_inet g true true) = [a] → get_gateway out = some a) ∧
    get_gateway "default via 10.0.0.1 dev eth0\n" = some "10.0.0.1" ∧
    get_gateway "no default here" = none := by
  refine ⟨?_, ?_, ?_, ?_, ?_⟩
  · intro h
    unfold get_gateway
    rw [h]
  · intro g hg hne
    have hred : get_gateway out = (match famList (_extract_inet g true true) with
        | [a] => some a
        | _ => none) := by
      unfold get_gateway
      rw [hg]
    rw [hred]
    cases hf : famList (_extract_inet g true true) with
    | nil => rfl
    | cons a t =>
      cases t with
      | nil => exact absurd (by rw [hf]; rfl) hne
      | cons b u => rfl
  · intro g a hg hf
    have hred : get_gateway out = (match famList (_extract_inet g true true) with
        | [a] => some a
        | _ => none) := by
      unfold get_gateway
      rw [hg]
    rw [hred, hf]
  · rfl
  · rfl

/-- Witness for C9: the no-match branch applied to a concrete dump. -/
theorem C9_gateway_lookup_witness : get_gateway "no default here" = none :=
  (C9_gateway_lookup "no default here").1 rfl

/-! ## C4: loopback exclusion -/

theorem scanIp4_no_loopback (wm : Bool) :
    ∀ fuel cs a, scanIp4 wm true fuel cs = some a → leadsWith loop4 a.data = false := by
  intro fuel
  induction fuel with
  | zero =>
    intro cs a h
    simp [scanIp4] at h
  | succ f ih =>
    intro cs a h
    simp only [scanIp4] at h
    cases hh : (ip4C wm cs).head? with
    | some n =>
      rw [hh] at h
      by_cases hl : leadsWith loop4 (cs.take n) = true
      · simp only [Bool.true_and, hl, if_true] at h
        exact ih _ _ h
      · have hlf : leadsWith loop4 (cs.take n) = false := Bool.eq_false_iff.mpr hl
        simp only [Bool.true_and, hlf, Bool.false_eq_true, if_false,
          Option.some.injEq] at h
        subst h
        exact hlf
    | none =>
      rw [hh] at h
      cases cs with
      | nil => simp at h
      | cons c t => exact ih _ _ h

theorem scanIp6_no_loopback (wm : Bool) :
    ∀ fuel cs a, scanIp6 wm true fuel cs = some a → a ≠ "::1" := by
  intro fuel
  induction fuel with
  | zero =>
    intro cs a h
    simp [scanIp6] at h
  | succ f ih =>
    intro cs a h
    simp only [scanIp6] at h
    cases hh : (ip6C wm (cs.length + 1) cs).head? with
    | some n =>
      rw [hh] at h
      by_cases hl : (cs.take n == loop6) = true
      · simp only [Bool.true_and, hl, if_true] at h
        exact ih _ _ h
      · have hlf : (cs.take n == loop6) = false := Bool.eq_false_iff.mpr hl
        simp only [Bool.true_and, hlf, Bool.false_eq_true, if_false,
          Option.some.injEq] at h
        subst h
        intro he
        have hd : cs.take n = loop6 := by
          have : (String.mk (cs.take n)).data = ("::1" : String).data := by rw [he]
          exact this
        exact hl (beq_iff_eq.mpr hd)
    | none =>
      rw [hh] at h
      cases cs with
      | nil => simp at h
      | cons c t => exact ih _ _ h

/-- C4.  With loopback skipping on, the extractor never returns an IPv4
address beginning with 127. nor the IPv6 address ::1 (it scans on past
such matches), and on the spec's two examples it returns 10.0.0.5 and
fe80::1 respectively. -/
theorem C4_loopback_skipped :
    (∀ (s : String) (sn : Bool),
      (∀ a, (_extract_inet s sn true).ipv4 = some a → pyStartsWith a "127." = false) ∧
      (∀ b, (_extract_inet s sn true).ipv6 = some b → b ≠ "::1")) ∧
    (_extract_inet "127.0.0.1 ... 10.0.0.5" true true).ipv4 = some "10.0.0.5" ∧
    (_extract_inet "::1 ... fe80::1" true true).ipv6 = some "fe80::1" := by
  refine ⟨?_, rfl, rfl⟩
  intro s sn
  constructor
  · intro a ha
    exact scanIp4_no_loopback (!sn) _ _ _ ha
  · intro b hb
    exact scanIp6_no_loopback (!sn) _ _ _ hb

/-- Witness for C4 at the spec's example inputs. -/
theorem C4_loopback_skipped_witness :
    pyStartsWith "10.0.0.5" "127." = false ∧ ("fe80::1" : String) ≠ "::1" :=
  ⟨(C4_loopback_skipped.1 "127.0.0.1 ... 10.0.0.5" true).1 "10.0.0.5" rfl,
   (C4_loopback_skipped.1 "::1 ... fe80::1" true).2 "fe80::1" rfl⟩

/-! ## C7: cache idempotence -/

theorem head?_dropWhile_false (p : Char → Bool) (l : List Char) :
    ∀ c, (l.dropWhile p).head? = some c → p c = false := by
  induction l with
  | nil => intro c h; simp at h
  | cons x t ih =>
    intro c h
    by_cases hp : p x = true
    · rw [List.dropWhile_cons_of_pos hp] at h
      exact ih c h
    · rw [List.dropWhile_cons_of_neg hp] at h
      simp only [List.head?_cons, Option.some.injEq] at h
      subst h
      exact Bool.eq_false_iff.mpr hp

theorem dropWhile_eq_self_of_head (p : Char → Bool) (l : List Char)
    (h : ∀ c, l.head? = some c → p c = false) : l.dropWhile p = l := by
  cases l with
  | nil => rfl
  | cons x t =>
    have hx := h x rfl
    rw [List.dropWhile_cons_of_neg (by simp [hx])]

theorem pyStripList_idem (cs : List Char) : pyStripList (pyStripList cs) = pyStripList cs := by
  set p := isPySpace with hp
  set A := cs.dropWhile p with hA
  have hsuf : A.reverse.dropWhile p <:+ A.reverse := List.dropWhile_suffix p
  obtain ⟨t, ht⟩ := hsuf
  have hpre : pyStripList cs ++ t.reverse = A := by
    show (A.reverse.dropWhile p).reverse ++ t.reverse = A
    rw [← List.reverse_append, ht, List.reverse_reverse]
  have hhead : ∀ c, (pyStripList cs).head? = some c → p c = false := by
    intro c hc
    have hcA : A.head? = some c := by
      rw [← hpre]
      cases hres : pyStripList cs with
      | nil => rw [hres] at hc; simp at hc
      | cons y u =>
        rw [hres] at hc
        simp only [List.head?_cons, Option.some.injEq] at hc
        subst hc
        rfl
    exact head?_dropWhile_false p cs c (hA ▸ hcA)
  show ((((pyStripList cs).dropWhile p).reverse).dropWhile p).reverse = pyStripList cs
  rw [dropWhile_eq_self_of_head p _ hhead]
  show ((A.reverse.dropWhile p).reverse.reverse.dropWhile p).reverse = _
  rw [List.reverse_reverse]
  rw [dropWhile_eq_self_of_head p _ (head?_dropWhile_false p A.reverse)]
  rfl

theorem pyStrip_idem (s : String) : pyStrip (pyStrip s) = pyStrip s := by
  show String.mk (pyStripList (pyStripList s.data)) = _
  rw [pyStripList_idem]
  rfl

theorem addVote_pres {P : String → Prop} :
    ∀ (l : List (String × Nat)) (ip : String), P ip → (∀ kv ∈ l, P kv.1) →
      ∀ kv ∈ addVote l ip, P kv.1 := by
  intro l ip hip
  induction l with
  | nil =>
    intro _ kv hkv
    simp only [addVote, List.mem_singleton] at hkv
    subst hkv
    exact hip
  | cons y t ih =>
    intro hl kv hkv
    obtain ⟨a, n⟩ := y
    simp only [addVote] at hkv
    by_cases he : a = ip
    · rw [if_pos he] at hkv
      rcases List.mem_cons.mp hkv with rfl | hm
      · exact hl (a, n) (List.mem_cons_self _ _)
      · exact hl kv (List.mem_cons_of_mem _ hm)
    · rw [if_neg he] at hkv
      rcases List.mem_cons.mp hkv with rfl | hm
      · exact hl (a, n) (List.mem_cons_self _ _)
      · exact ih (fun kv h => hl kv (List.mem_cons_of_mem _ h)) kv hm

theorem votesOf_pres {P : String → Prop} (fetch : String → Option String)
    (hP : ∀ t, P (pyStrip t)) :
    ∀ (urls : List String) (acc : List (String × Nat)), (∀ kv ∈ acc, P kv.1) →
      ∀ kv ∈ votesOf fetch urls acc, P kv.1 := by
  intro urls
  induction urls with
  | nil =>
    intro acc hacc kv hkv
    exact hacc kv hkv
  | cons u us ih =>
    intro acc hacc kv hkv
    simp only [votesOf] at hkv
    cases hu : fetch u with
    | some t =>
      rw [hu] at hkv
      exact ih _ (addVote_pres acc (pyStrip t) (hP t) hacc) kv hkv
    | none =>
      rw [hu] at hkv
      exact ih _ hacc kv hkv

theorem insertAsc_mem :
    ∀ (l : List (String × Nat)) (x kv : String × Nat), kv ∈ insertAsc x l → kv = x ∨ kv ∈ l := by
  intro l x
  induction l with
  | nil =>
    intro kv hkv
    simp only [insertAsc, List.mem_singleton] at hkv
    exact Or.inl hkv
  | cons y t ih =>
    intro kv hkv
    simp only [insertAsc] at hkv
    by_cases hc : y.2 ≤ x.2
    · rw [if_pos hc] at hkv
      rcases List.mem_cons.mp hkv with rfl | hm
      · exact Or.inr (List.mem_cons_self _ _)
      · rcases ih kv hm with h | h
        · exact Or.inl h
        · exact Or.inr (List.mem_cons_of_mem _ h)
    · rw [if_neg hc] at hkv
      rcases List.mem_cons.mp hkv with rfl | hm
      · exact Or.inl rfl
      · exact Or.inr hm

theorem sortByCountAsc_mem (l : List (String × Nat)) (kv : String × Nat)
    (h : kv ∈ sortByCountAsc l) : kv ∈ l := by
  suffices haux : ∀ (l acc : List (String × Nat)) (kv : String × Nat),
      kv ∈ l.foldl (fun acc x => insertAsc x acc) acc → kv ∈ acc ∨ kv ∈ l by
    rcases haux l [] kv h with hc | hc
    · simp at hc
    · exact hc
  intro l
  induction l with
  | nil =>
    intro acc kv h
    exact Or.inl h
  | cons x t ih =>
    intro acc kv h
    rcases ih (insertAsc x acc) kv h with hc | hc
    · rcases insertAsc_mem acc x kv hc with rfl | hm
      · exact Or.inr (List.mem_cons_self _ _)
      · exact Or.inl hm
    · exact Or.inr (List.mem_cons_of_mem _ hc)

theorem get_public_ips_stripped (p : Nat) (env : Env) (a : String)
    (h : a ∈ get_public_ips p env) : pyStrip a = a := by
  unfold get_public_ips at h
  obtain ⟨kv, hkv, hfst⟩ := List.mem_map.mp h
  subst hfst
  exact @votesOf_pres (fun x => pyStrip x = x) env.fetch (fun t => pyStrip_idem t) _ []
    (by simp) kv (sortByCountAsc_mem _ kv hkv)

theorem remote_result_stripped (p : Nat) (env : Env) (a : String)
    (h : (get_public_ip_from_remote_server p env).result = some a) : pyStrip a = a := by
  unfold get_public_ip_from_remote_server at h
  by_cases h6 : (p = 6 && !env.hasIf6) = true
  · rw [if_pos h6] at h
    simp at h
  · rw [if_neg h6] at h
    by_cases hr : (!route_available (linesOf (env.routeOutput p))) = true
    · rw [if_pos hr] at h
      simp at h
    · rw [if_neg hr] at h
      exact get_public_ips_stripped p env a
        (List.mem_of_mem_head? (show (get_public_ips p env).head? = some a from h))

/-- C7 counterexample.  With no cache entry and the sole mirror returning
whitespace-only text, the first call resolves to the empty-string address
and caches "".  A second call one second later falls inside the TTL
window and issues no mirror query, but it returns none (the empty cache
file is read back as no-IP), not the first call's result: the two calls'
results differ although the claim requires them to be identical. -/
theorem C7_blank_mirror_not_idempotent :
    (get_public_ip 4 envBlankMirror).outcome = .ok (some "") ∧
    ((get_public_ip 4 envBlankMirror).envAfter.cacheCtime - (1 : Int)).natAbs < 120 ∧
    (get_public_ip 4 { (get_public_ip 4 envBlankMirror).envAfter with now := 1 }).remoteAsked
      = false ∧
    (get_public_ip 4 { (get_public_ip 4 envBlankMirror).envAfter with now := 1 }).outcome ≠
      (get_public_ip 4 envBlankMirror).outcome := by
  refine ⟨rfl, by decide, rfl, ?_⟩
  have h1 : (get_public_ip 4 envBlankMirror).outcome = .ok (some "") := rfl
  have h2 : (get_public_ip 4
      { (get_public_ip 4 envBlankMirror).envAfter with now := 1 }).outcome = .ok none := rfl
  rw [h1, h2]
  simp

theorem get_public_ip_hit (p : Nat) (env : Env) (hp : p = 4 ∨ p = 6)
    (hex : env.cacheExists = true) (ht : (env.cacheCtime - env.now).natAbs < 120) :
    get_public_ip p env =
      { outcome := .ok (if pyStrip env.cacheContent = "" then none
          else some (pyStrip env.cacheContent)),
        checkedCache := true, remoteAsked := false, written := none, envAfter := env } := by
  have hcond : (env.cacheExists && decide ((env.cacheCtime - env.now).natAbs < 120)) = true := by
    simp [hex, ht]
  simp [get_public_ip, if_pos hp, hcond]

theorem get_public_ip_miss (p : Nat) (env : Env) (hp : p = 4 ∨ p = 6)
    (hcond : (env.cacheExists && decide ((env.cacheCtime - env.now).natAbs < 120)) = false) :
    get_public_ip p env =
      { outcome := .ok (get_public_ip_from_remote_server p env).result,
        checkedCache := true, remoteAsked := true,
        written := some (match (get_public_ip_from_remote_server p env).result with
          | some a => if a = "" then "" else a
          | none => ""),
        envAfter := { env with
          cacheExists := true,
          cacheContent := (match (get_public_ip_from_remote_server p env).result with
            | some a => if a = "" then "" else a
            | none => ""),
          cacheCtime := env.now } } := by
  simp [get_public_ip, if_pos hp, hcond]

/-- C7 amended.  Calling get_public_ip twice within the TTL window of the
entry written or read by the first call issues no mirror query on the
second call, and — provided the first call's result is not the
empty-string address, which the cache encoding conflates with none —
returns the identical result. -/
theorem C7_cache_idempotent_amended (p : Nat) (env env2 : Env) (t2 : Int)
    (hp : p = 4 ∨ p = 6)
    (henv2 : env2 = { (get_public_ip p env).envAfter with now := t2 })
    (hfresh : (get_public_ip p env).outcome ≠ .ok (some ""))
    (httl : ((get_public_ip p env).envAfter.cacheCtime - t2).natAbs < 120) :
    (get_public_ip p env2).remoteAsked = false ∧
    (get_public_ip p env2).outcome = (get_public_ip p env).outcome := by
  by_cases hcond : (env.cacheExists && decide ((env.cacheCtime - env.now).natAbs < 120)) = true
  · have hsplit := hcond
    simp only [Bool.and_eq_true, decide_eq_true_eq] at hsplit
    obtain ⟨hex, ht⟩ := hsplit
    have h1 := get_public_ip_hit p env hp hex ht
    rw [h1] at httl henv2
    simp only at henv2
    subst henv2
    have h2 := get_public_ip_hit p { env with now := t2 } hp hex (by simpa using httl)
    rw [h1, h2]
    exact ⟨rfl, rfl⟩
  · have hcondf : (env.cacheExists && decide ((env.cacheCtime - env.now).natAbs < 120)) = false :=
      Bool.eq_false_iff.mpr hcond
    have h1 := get_public_ip_miss p env hp hcondf
    rw [h1] at httl hfresh henv2
    simp only at henv2 httl hfresh
    cases hres : (get_public_ip_from_remote_server p env).result with
    | none =>
      rw [hres] at h1 henv2
      simp only at henv2
      subst henv2
      rw [h1]
      have h2 := get_public_ip_hit p
        { env with cacheExists := true, cacheContent := "", cacheCtime := env.now, now := t2 }
        hp rfl (by simpa using httl)
      rw [h2]
      constructor
      · rfl
      · show Except.ok (if pyStrip "" = "" then none else some (pyStrip "")) = Except.ok none
        rfl
    | some a =>
      have hane : a ≠ "" := by
        intro he
        subst he
        rw [hres] at hfresh
        exact hfresh rfl
      have hstr : pyStrip a = a := remote_result_stripped p env a hres
      rw [hres] at h1 henv2
      simp only [if_neg hane] at h1 henv2
      subst henv2
      rw [h1]
      have h2 := get_public_ip_hit p
        { env with cacheExists := true, cacheContent := a, cacheCtime := env.now, now := t2 }
        hp rfl (by simpa using httl)
      rw [h2]
      constructor
      · rfl
      · show Except.ok (if pyStrip a = "" then none else some (pyStrip a)) = Except.ok (some a)
        rw [hstr, if_neg hane]

/-- Witness for C7 amended: a cached nonempty address re-read within the
TTL window. -/
theorem C7_cache_idempotent_amended_witness :
    (get_public_ip 4 { (get_public_ip 4 envCached).envAfter with now := 50 }).remoteAsked
      = false ∧
    (get_public_ip 4 { (get_public_ip 4 envCached).envAfter with now := 50 }).outcome =
      (get_public_ip 4 envCached).outcome := by
  refine C7_cache_idempotent_amended 4 envCached _ 50 (Or.inl rfl) rfl ?_ (by decide)
  intro h
  have h1 : (get_public_ip 4 envCached).outcome = .ok (some "1.2.3.4") := rfl
  rw [h1] at h
  injection h with h
  injection h with h
  exact (by decide : ("1.2.3.4" : String) ≠ "") h

/-! ## C3: the IPv4 pattern and the netmask flag -/

theorem thenC_head {p q : List Char → List Nat} {cs : List Char} {n m : Nat}
    (hp : (p cs).head? = some n) (hq : ((q (cs.drop n))).head? = some m) :
    (thenC p q cs).head? = some (n + m) := by
  cases hpc : p cs with
  | nil => rw [hpc] at hp; exact absurd hp (by simp)
  | cons x t =>
    rw [hpc] at hp
    simp only [List.head?_cons, Option.some.injEq] at hp
    cases hqc : q (cs.drop n) with
    | nil => rw [hqc] at hq; exact absurd hq (by simp)
    | cons y s =>
      rw [hqc] at hq
      simp only [List.head?_cons, Option.some.injEq] at hq
      unfold thenC
      rw [hpc, hp]
      simp [hqc, hq]

theorem seqC_cons_head {p : List Char → List Nat} {ps : List (List Char → List Nat)}
    {cs : List Char} {n m : Nat} (hp : (p cs).head? = some n)
    (hrest : (seqC ps (cs.drop n)).head? = some m) :
    (seqC (p :: ps) cs).head? = some (n + m) :=
  thenC_head hp hrest

theorem not_digit_range45 {x : Char} (hx : x.isDigit = false) (hi : Char)
    (hhi : hi ≤ '9') : ('0' ≤ x && x ≤ hi) = false := by
  cases hr : (('0' ≤ x && x ≤ hi) : Bool) with
  | true =>
    simp only [Bool.and_eq_true, decide_eq_true_eq] at hr
    rw [isDigitRange hr.1 hr.2 hhi] at hx
    exact absurd hx (by simp)
  | false => rfl

theorem not_digit_ne5 {x : Char} (hx : x.isDigit = false) : (decide (x = '5')) = false := by
  apply decide_eq_false
  rintro rfl
  simp at hx

/-- The backtracking engine's first candidate for the octet pattern at a
valid octet followed by a non-digit (or nothing) is the whole octet. -/
theorem octetC_head {o r : List Char} (ho : validOctet o = true)
    (hr : ∀ c, r.head? = some c → c.isDigit = false) :
    (octetC (o ++ r)).head? = some o.length := by
  match o, ho with
  | [c], ho =>
    have hc : c.isDigit = true := by simpa [validOctet] using ho
    cases r with
    | nil => simp [octetC, hc]
    | cons r0 r1 =>
      have hr0 : r0.isDigit = false := hr r0 rfl
      cases r1 with
      | nil => simp [octetC, hc, hr0]
      | cons r1' r2 =>
        have h5 : (decide (r0 = '5')) = false := not_digit_ne5 hr0
        have h04 : ('0' ≤ r0 && r0 ≤ '4') = false := not_digit_range45 hr0 '4' (by decide)
        simp [octetC, oct3a, oct3b, oct3c, hc, hr0, h5, h04]
  | [c, d], ho =>
    have hcd : c.isDigit = true ∧ d.isDigit = true := by
      simpa [validOctet] using ho
    obtain ⟨hc, hd⟩ := hcd
    cases r with
    | nil =>
      cases h01 : ((c = '0' || c = '1') : Bool) <;> simp [octetC, hc, hd, h01]
    | cons r0 r1 =>
      have hr0 : r0.isDigit = false := hr r0 rfl
      have h05 : ('0' ≤ r0 && r0 ≤ '5') = false := not_digit_range45 hr0 '5' (by decide)
      cases h01 : ((c = '0' || c = '1') : Bool) <;>
        simp [octetC, oct3a, oct3b, oct3c, hc, hd, hr0, h05, h01]
  | [c, d, e], ho =>
    have htri : (oct3a c d e || (oct3b c d e || oct3c c d e)) = true := by
      simpa [validOctet, Bool.or_assoc] using ho
    cases h1 : oct3a c d e with
    | true => simp [octetC, h1]
    | false =>
      rw [h1] at htri
      simp only [Bool.false_or] at htri
      cases h2 : oct3b c d e with
      | true => simp [octetC, h1, h2]
      | false =>
        rw [h2] at htri
        simp only [Bool.false_or] at htri
        simp [octetC, h1, h2, htri]

theorem dotC_head (rest : List Char) : (dotC ('.' :: rest)).head? = some 1 := by
  simp [dotC]

theorem slashC_head (rest : List Char) : (slashC ('/' :: rest)).head? = some 1 := by
  simp [slashC]

theorem d12C_head {pd : List Char} (h : validPfxDigits pd = true) :
    (d12C pd).head? = some pd.length := by
  match pd, h with
  | [c], h =>
    have hc : c.isDigit = true := by simpa [validPfxDigits] using h
    simp [d12C, hc]
  | [c, d], h =>
    have hcd : c.isDigit = true ∧ d.isDigit = true := by
      simpa [validPfxDigits] using h
    simp [d12C, hcd.1, hcd.2]

theorem head_of_cons_nondigit {x : Char} (hx : x.isDigit = false) (rest : List Char) :
    ∀ c, ((x :: rest) : List Char).head? = some c → c.isDigit = false := by
  intro c hc
  simp only [List.head?_cons, Option.some.injEq] at hc
  subst hc
  exact hx

/-- Chaining the four octets and the three dots over a structured text. -/
theorem ip4Text_head (o1 o2 o3 o4 tail : List Char)
    (comps : List (List Char → List Nat)) (t : Nat)
    (h1 : validOctet o1 = true) (h2 : validOctet o2 = true)
    (h3 : validOctet o3 = true) (h4 : validOctet o4 = true)
    (htail0 : ∀ c, tail.head? = some c → c.isDigit = false)
    (htail : (seqC comps tail).head? = some t) :
    (seqC ([octetC, dotC, octetC, dotC, octetC, dotC, octetC] ++ comps)
        (o1 ++ '.' :: (o2 ++ '.' :: (o3 ++ '.' :: (o4 ++ tail))))).head? =
      some (o1.length + (1 + (o2.length + (1 + (o3.length + (1 + (o4.length + t))))))) := by
  have hdot : ∀ (rest : List Char), ∀ c, (('.' :: rest) : List Char).head? = some c →
      c.isDigit = false := fun rest => head_of_cons_nondigit (by decide) rest
  refine seqC_cons_head (octetC_head h1 (hdot _)) ?_
  rw [List.drop_left]
  refine seqC_cons_head (dotC_head _) ?_
  simp only [List.drop_succ_cons, List.drop_zero]
  refine seqC_cons_head (octetC_head h2 (hdot _)) ?_
  rw [List.drop_left]
  refine seqC_cons_head (dotC_head _) ?_
  simp only [List.drop_succ_cons, List.drop_zero]
  refine seqC_cons_head (octetC_head h3 (hdot _)) ?_
  rw [List.drop_left]
  refine seqC_cons_head (dotC_head _) ?_
  simp only [List.drop_succ_cons, List.drop_zero]
  refine seqC_cons_head (octetC_head h4 htail0) ?_
  rw [List.drop_left]
  exact htail

theorem seqC_eq_nil_of_mem {q : List Char → List Nat}
    (hq : ∀ ds, (∀ c ∈ ds, c ≠ '/') → q ds = []) :
    ∀ (ps : List (List Char → List Nat)), q ∈ ps →
      ∀ cs, (∀ c ∈ cs, c ≠ '/') → seqC ps cs = [] := by
  intro ps
  induction ps with
  | nil =>
    intro h
    exact absurd h (List.not_mem_nil q)
  | cons p ps ih =>
    intro hmem cs hcs
    rcases List.mem_cons.mp hmem with heq | hmem'
    · subst heq
      show thenC q (seqC ps) cs = []
      unfold thenC
      rw [hq cs hcs]
      rfl
    · show thenC p (seqC ps) cs = []
      unfold thenC
      apply List.flatMap_eq_nil_iff.mpr
      intro n _
      rw [ih hmem' _ (fun c hc => hcs c (List.mem_of_mem_drop hc))]
      rfl

theorem slashC_nil (ds : List Char) (h : ∀ c ∈ ds, c ≠ '/') : slashC ds = [] := by
  cases ds with
  | nil => rfl
  | cons c t =>
    have hc := h c (List.mem_cons_self _ _)
    simp [slashC, hc]

theorem ip4C_true_nil (cs : List Char) (h : ∀ c ∈ cs, c ≠ '/') : ip4C true cs = [] := by
  show seqC ([octetC, dotC, octetC, dotC, octetC, dotC, octetC] ++ [slashC, d12C]) cs = []
  exact seqC_eq_nil_of_mem slashC_nil _
    (List.mem_append_right _ (List.mem_cons_self _ _)) cs h

theorem scanIp4_none (sl : Bool) :
    ∀ (fuel : Nat) (cs : List Char), (∀ c ∈ cs, c ≠ '/') →
      scanIp4 true sl fuel cs = none := by
  intro fuel
  induction fuel with
  | zero => intro cs h; rfl
  | succ f ih =>
    intro cs h
    simp only [scanIp4, ip4C_true_nil cs h, List.head?_nil]
    cases cs with
    | nil => rfl
    | cons c t => exact ih t (fun x hx => h x (List.mem_cons_of_mem _ hx))

theorem validOctet_digits {o : List Char} (h : validOctet o = true) :
    ∀ c ∈ o, c.isDigit = true := by
  match o, h with
  | [c], h =>
    intro x hx
    rw [List.mem_singleton.mp hx]
    simpa [validOctet] using h
  | [c, d], h =>
    have hcd : c.isDigit = true ∧ d.isDigit = true := by
      simpa [validOctet] using h
    intro x hx
    rcases List.mem_cons.mp hx with rfl | hx'
    · exact hcd.1
    · rw [List.mem_singleton.mp hx']
      exact hcd.2
  | [c, d, e], h =>
    have htri : oct3a c d e = true ∨ oct3b c d e = true ∨ oct3c c d e = true := by
      have hh : (oct3a c d e || (oct3b c d e || oct3c c d e)) = true := by
        simpa [validOctet, Bool.or_assoc] using h
      simpa using hh
    have hdig : c.isDigit = true ∧ d.isDigit = true ∧ e.isDigit = true := by
      rcases htri with ha | hb | hc
      · simp only [oct3a, Bool.and_eq_true, decide_eq_true_eq] at ha
        obtain ⟨⟨hc2, hd5⟩, he⟩ := ha
        subst hc2; subst hd5
        exact ⟨by decide, by decide, isDigitRange he.1 he.2 (by decide)⟩
      · simp only [oct3b, Bool.and_eq_true, decide_eq_true_eq] at hb
        obtain ⟨⟨hc2, hd04⟩, he⟩ := hb
        subst hc2
        exact ⟨by decide, isDigitRange hd04.1 hd04.2 (by decide), he⟩
      · simp only [oct3c, Bool.and_eq_true, Bool.or_eq_true, decide_eq_true_eq] at hc
        obtain ⟨⟨hc01, hd⟩, he⟩ := hc
        rcases hc01 with rfl | rfl
        · exact ⟨by decide, hd, he⟩
        · exact ⟨by decide, hd, he⟩
    intro x hx
    rcases List.mem_cons.mp hx with rfl | hx'
    · exact hdig.1
    rcases List.mem_cons.mp hx' with rfl | hx''
    · exact hdig.2.1
    · rw [List.mem_singleton.mp hx'']
      exact hdig.2.2

theorem dotted_quad_no_slash {o1 o2 o3 o4 : List Char}
    (h1 : validOctet o1 = true) (h2 : validOctet o2 = true)
    (h3 : validOctet o3 = true) (h4 : validOctet o4 = true) :
    ∀ c ∈ (o1 ++ '.' :: (o2 ++ '.' :: (o3 ++ '.' :: o4))), c ≠ '/' := by
  have hdig : ∀ (o : List Char), validOctet o = true → ∀ c ∈ o, c ≠ '/' := by
    intro o ho c hc he
    subst he
    have := validOctet_digits ho _ hc
    exact absurd this (by decide)
  intro c hc
  rcases List.mem_append.mp hc with hm | hm
  · exact hdig o1 h1 c hm
  rcases List.mem_cons.mp hm with rfl | hm
  · decide
  rcases List.mem_append.mp hm with hm | hm
  · exact hdig o2 h2 c hm
  rcases List.mem_cons.mp hm with rfl | hm
  · decide
  rcases List.mem_append.mp hm with hm | hm
  · exact hdig o3 h3 c hm
  rcases List.mem_cons.mp hm with rfl | hm
  · decide
  · exact hdig o4 h4 c hm

theorem not127 {o1 : List Char} (rest : List Char) (h1 : validOctet o1 = true)
    (hne : o1 ≠ ['1', '2', '7']) :
    leadsWith loop4 (o1 ++ '.' :: rest) = false := by
  match o1, h1 with
  | [c], _ => simp [loop4, leadsWith]
  | [c, d], _ => simp [loop4, leadsWith]
  | [c, d, e], _ =>
    by_cases hc1 : ('1' : Char) = c
    · by_cases hd2 : ('2' : Char) = d
      · by_cases he7 : ('7' : Char) = e
        · exact absurd (by rw [← hc1, ← hd2, ← he7]) hne
        · simp [loop4, leadsWith, he7]
      · simp [loop4, leadsWith, hd2]
    · simp [loop4, leadsWith, hc1]

theorem scanIp4_first_match (wm sl : Bool) (fuel : Nat) (cs : List Char) (n : Nat)
    (hh : (ip4C wm cs).head? = some n)
    (hskip : (sl && leadsWith loop4 (cs.take n)) = false) :
    scanIp4 wm sl (fuel + 1) cs = some (String.mk (cs.take n)) := by
  simp only [scanIp4, hh, hskip, Bool.false_eq_true, if_false]

theorem ip4_head_mask {o1 o2 o3 o4 pd : List Char}
    (h1 : validOctet o1 = true) (h2 : validOctet o2 = true)
    (h3 : validOctet o3 = true) (h4 : validOctet o4 = true)
    (hpd : validPfxDigits pd = true) :
    (ip4C true (o1 ++ '.' :: (o2 ++ '.' :: (o3 ++ '.' :: (o4 ++ '/' :: pd))))).head? =
      some (o1 ++ '.' :: (o2 ++ '.' :: (o3 ++ '.' :: (o4 ++ '/' :: pd)))).length := by
  have htail : (seqC [slashC, d12C] ('/' :: pd)).head? = some (1 + (pd.length + 0)) := by
    refine seqC_cons_head (slashC_head pd) ?_
    simp only [List.drop_succ_cons, List.drop_zero]
    refine seqC_cons_head (d12C_head hpd) ?_
    rw [List.drop_length]
    rfl
  have hh := ip4Text_head o1 o2 o3 o4 ('/' :: pd) [slashC, d12C] (1 + (pd.length + 0))
    h1 h2 h3 h4 (head_of_cons_nondigit (by decide) pd) htail
  show (seqC ([octetC, dotC, octetC, dotC, octetC, dotC, octetC] ++ [slashC, d12C]) _).head? = _
  rw [hh]
  congr 1
  simp only [List.length_append, List.length_cons]
  omega

theorem ip4_head_nomask {o1 o2 o3 o4 : List Char} (tail : List Char)
    (h1 : validOctet o1 = true) (h2 : validOctet o2 = true)
    (h3 : validOctet o3 = true) (h4 : validOctet o4 = true)
    (htail0 : ∀ c, tail.head? = some c → c.isDigit = false) :
    (ip4C false (o1 ++ '.' :: (o2 ++ '.' :: (o3 ++ '.' :: (o4 ++ tail))))).head? =
      some (o1 ++ '.' :: (o2 ++ '.' :: (o3 ++ '.' :: o4))).length := by
  have hh := ip4Text_head o1 o2 o3 o4 tail [] 0 h1 h2 h3 h4 htail0 rfl
  show (seqC ([octetC, dotC, octetC, dotC, octetC, dotC, octetC] ++ []) _).head? = _
  rw [hh]
  congr 1
  simp only [List.length_append, List.length_cons]
  omega

theorem scanIp4_whole (wm : Bool) (cs : List Char)
    (hh : (ip4C wm cs).head? = some cs.length)
    (hloop : leadsWith loop4 cs = false) :
    scanIp4 wm true (cs.length + 1) cs = some (String.mk cs) := by
  have hm := scanIp4_first_match wm true cs.length cs cs.length hh
    (by rw [List.take_length, Bool.true_and]; exact hloop)
  rw [List.take_length] at hm
  exact hm

theorem scanIp4_front (wm : Bool) (A rest : List Char)
    (hh : (ip4C wm (A ++ rest)).head? = some A.length)
    (hloop : leadsWith loop4 A = false) :
    scanIp4 wm true ((A ++ rest).length + 1) (A ++ rest) = some (String.mk A) := by
  have hm := scanIp4_first_match wm true (A ++ rest).length (A ++ rest) A.length hh
    (by rw [List.take_left, Bool.true_and]; exact hloop)
  rw [List.take_left] at hm
  exact hm

/-- C3 counterexample.  The claim says the IPv4 literal is extracted with
skipNetmask=false whether or not a /prefix follows.  On the bare literal
10.0.0.5 (no prefix) the skipNetmask=false pattern requires the /prefix
and matches nothing: no IPv4 record is produced. -/
theorem C3_bare_literal_not_extracted :
    (_extract_inet "10.0.0.5" false true).ipv4 = none := rfl

/-- C3 amended.  For every dotted quad of octets accepted by the pattern
(first octet not 127, so loopback skipping does not interfere) and every
one-or-two-digit prefix: with skipNetmask=false the extractor requires
the /prefix — the literal with its prefix attached is extracted when the
prefix is present, and nothing is extracted from the bare literal — while
with skipNetmask=true the bare literal is extracted whether or not a
prefix follows (the prefix is left off). -/
theorem C3_netmask_flag_behavior (o1 o2 o3 o4 pd : List Char)
    (h1 : validOctet o1 = true) (h2 : validOctet o2 = true)
    (h3 : validOctet o3 = true) (h4 : validOctet o4 = true)
    (hpd : validPfxDigits pd = true) (h127 : o1 ≠ ['1', '2', '7']) :
    (_extract_inet (String.mk ((o1 ++ '.' :: (o2 ++ '.' :: (o3 ++ '.' :: o4))) ++ '/' :: pd))
        false true).ipv4 =
      some (String.mk ((o1 ++ '.' :: (o2 ++ '.' :: (o3 ++ '.' :: o4))) ++ '/' :: pd)) ∧
    (_extract_inet (String.mk (o1 ++ '.' :: (o2 ++ '.' :: (o3 ++ '.' :: o4))))
        false true).ipv4 = none ∧
    (_extract_inet (String.mk ((o1 ++ '.' :: (o2 ++ '.' :: (o3 ++ '.' :: o4))) ++ '/' :: pd))
        true true).ipv4 = some (String.mk (o1 ++ '.' :: (o2 ++ '.' :: (o3 ++ '.' :: o4)))) ∧
    (_extract_inet (String.mk (o1 ++ '.' :: (o2 ++ '.' :: (o3 ++ '.' :: o4))))
        true true).ipv4 = some (String.mk (o1 ++ '.' :: (o2 ++ '.' :: (o3 ++ '.' :: o4)))) := by
  have hassoc : (o1 ++ '.' :: (o2 ++ '.' :: (o3 ++ '.' :: o4))) ++ '/' :: pd =
      o1 ++ '.' :: (o2 ++ '.' :: (o3 ++ '.' :: (o4 ++ '/' :: pd))) := by
    simp [List.append_assoc, List.cons_append]
  have hassoc0 : o1 ++ '.' :: (o2 ++ '.' :: (o3 ++ '.' :: o4)) =
      o1 ++ '.' :: (o2 ++ '.' :: (o3 ++ '.' :: (o4 ++ ([] : List Char)))) := by
    simp
  have hloop : leadsWith loop4 (o1 ++ '.' :: (o2 ++ '.' :: (o3 ++ '.' :: o4))) = false :=
    not127 _ h1 h127
  refine ⟨?_, ?_, ?_, ?_⟩
  · show scanIp4 true true
        (((o1 ++ '.' :: (o2 ++ '.' :: (o3 ++ '.' :: o4))) ++ '/' :: pd).length + 1)
        ((o1 ++ '.' :: (o2 ++ '.' :: (o3 ++ '.' :: o4))) ++ '/' :: pd) =
      some (String.mk ((o1 ++ '.' :: (o2 ++ '.' :: (o3 ++ '.' :: o4))) ++ '/' :: pd))
    rw [hassoc]
    exact scanIp4_whole true _ (ip4_head_mask h1 h2 h3 h4 hpd)
      (not127 _ h1 h127)
  · show scanIp4 true true
        ((o1 ++ '.' :: (o2 ++ '.' :: (o3 ++ '.' :: o4))).length + 1)
        (o1 ++ '.' :: (o2 ++ '.' :: (o3 ++ '.' :: o4))) = none
    exact scanIp4_none true _ _ (dotted_quad_no_slash h1 h2 h3 h4)
  · show scanIp4 false true
        (((o1 ++ '.' :: (o2 ++ '.' :: (o3 ++ '.' :: o4))) ++ '/' :: pd).length + 1)
        ((o1 ++ '.' :: (o2 ++ '.' :: (o3 ++ '.' :: o4))) ++ '/' :: pd) =
      some (String.mk (o1 ++ '.' :: (o2 ++ '.' :: (o3 ++ '.' :: o4))))
    have hh := ip4_head_nomask ('/' :: pd) h1 h2 h3 h4
      (head_of_cons_nondigit (by decide) pd)
    rw [← hassoc] at hh
    exact scanIp4_front false _ _ hh hloop
  · show scanIp4 false true
        ((o1 ++ '.' :: (o2 ++ '.' :: (o3 ++ '.' :: o4))).length + 1)
        (o1 ++ '.' :: (o2 ++ '.' :: (o3 ++ '.' :: o4))) =
      some (String.mk (o1 ++ '.' :: (o2 ++ '.' :: (o3 ++ '.' :: o4))))
    have hh := ip4_head_nomask ([] : List Char) h1 h2 h3 h4 (by intro c hc; simp at hc)
    rw [← hassoc0] at hh
    exact scanIp4_whole false _ hh hloop

/-- Witness for C3 amended at the quad 10.0.0.5 with prefix 24. -/
theorem C3_netmask_flag_behavior_witness :
    (_extract_inet "10.0.0.5/24" false true).ipv4 = some "10.0.0.5/24" ∧
    (_extract_inet "10.0.0.5" false true).ipv4 = none ∧
    (_extract_inet "10.0.0.5/24" true true).ipv4 = some "10.0.0.5" ∧
    (_extract_inet "10.0.0.5" true true).ipv4 = some "10.0.0.5" := by
  have h := C3_netmask_flag_behavior ['1', '0'] ['0'] ['0'] ['5'] ['2', '4']
    (by decide) (by decide) (by decide) (by decide) (by decide) (by decide)
  exact h
